import Mathlib

/-!
Shallow embedding of the finite-volume elliptic assembler
(`src/porepy/numerics/fv/fv_elliptic.py`, class `FVElliptic`) and of the
mass discretization (`mass.py`, class `Mass`).

Scipy sparse matrices are modelled as a shape (rows, cols) together with a
total entry function into ℚ; numpy arrays as a length together with a total
entry function.  The per-grid data dictionary is an association list from
string keys to entries (a sparse matrix or a parameter object).  Exceptions
(KeyError on a missing dictionary key) are modelled with `Except String`.
The abstract method `discretize` (implemented by subclasses outside this
code) is passed in as a function argument.
-/

/-- Model of a scipy sparse matrix: shape plus a total entry function.
Entries outside the shape are 0 for well-formed matrices. -/
@[ext]
structure SpMat where
  rows : ℕ
  cols : ℕ
  entry : ℕ → ℕ → ℚ

/-- Matrix transpose (scipy `.T`). -/
def SpMat.transpose (A : SpMat) : SpMat :=
  ⟨A.cols, A.rows, fun i j => A.entry j i⟩

/-- Matrix product (scipy `*` on two sparse matrices); summation runs over
the inner dimension `A.cols`. -/
def SpMat.mul (A B : SpMat) : SpMat :=
  ⟨A.rows, B.cols, fun i j => ∑ k ∈ Finset.range A.cols, A.entry i k * B.entry k j⟩

/-- Entrywise sum (scipy `+`, shapes assumed equal). -/
def SpMat.add (A B : SpMat) : SpMat :=
  ⟨A.rows, A.cols, fun i j => A.entry i j + B.entry i j⟩

/-- Entrywise difference (scipy `-`, shapes assumed equal). -/
def SpMat.sub (A B : SpMat) : SpMat :=
  ⟨A.rows, A.cols, fun i j => A.entry i j - B.entry i j⟩

/-- Entrywise negation (scipy unary `-`). -/
def SpMat.neg (A : SpMat) : SpMat :=
  ⟨A.rows, A.cols, fun i j => -A.entry i j⟩

/-- Model of a numpy 1-d array: length plus a total entry function. -/
@[ext]
structure Arr where
  len : ℕ
  entry : ℕ → ℚ

/-- Matrix–vector product (scipy sparse `*` against a numpy array). -/
def SpMat.mulVec (A : SpMat) (v : Arr) : Arr :=
  ⟨A.rows, fun i => ∑ k ∈ Finset.range A.cols, A.entry i k * v.entry k⟩

/-- Entrywise negation of an array. -/
def Arr.neg (v : Arr) : Arr :=
  ⟨v.len, fun i => -v.entry i⟩

/-- `np.ones(n)`. -/
def ones (n : ℕ) : Arr := ⟨n, fun _ => 1⟩

/-- `np.zeros(n)`. -/
def zeros (n : ℕ) : Arr := ⟨n, fun _ => 0⟩

/-- `sps.dia_matrix((coeff, 0), shape=(n, n))`: square diagonal sparse matrix
holding `coeff` on the main diagonal. -/
def dia_matrix (coeff : ℕ → ℚ) (n : ℕ) : SpMat :=
  ⟨n, n, fun i j => if i = j ∧ i < n then coeff i else 0⟩

/-- The n × n identity matrix (used to state the mass round-trip property). -/
def identityMat (n : ℕ) : SpMat :=
  ⟨n, n, fun i j => if i = j ∧ i < n then 1 else 0⟩

/-- Model of a porepy grid: cell and face counts, cell volumes, and the
signed face-by-cell incidence matrix `cell_faces` (one row per face, one
column per cell, sign encoding orientation). Read-only for this core. -/
structure Grid where
  num_cells : ℕ
  num_faces : ℕ
  cell_volumes : Arr
  cell_faces : SpMat

/-- Model of a mortar grid: the two averaging projections from the master
respectively slave side face space into the mortar space (the Python methods
`master_to_mortar_avg()` and `slave_to_mortar_avg()`). -/
structure MortarGrid where
  master_to_mortar_avg : SpMat
  slave_to_mortar_avg : SpMat

/-- Modelled from the spec: the external parameter accessor object stored
under key "param"; its method `get_bc_val` (source: `param.get_bc_val(self)`)
returns the boundary-condition value vector, one entry per face. The class
implementing it is repository code not under src. -/
structure Param where
  bc_val : Arr

/-- Modelled from the spec: `get_bc_val` of the parameter accessor returns
the stored boundary-condition value vector. -/
def Param.get_bc_val (p : Param) : Arr := p.bc_val

/-- A value stored in the per-grid data dictionary. -/
inductive Entry where
  | mat : SpMat → Entry
  | param : Param → Entry

/-- The per-grid data dictionary (Python dict keyed by strings). -/
abbrev Data := List (String × Entry)

/-- Python `key in data.keys()`. -/
def hasKey (d : Data) (k : String) : Bool :=
  (List.lookup k d).isSome

/-- `data[k]` expected to hold a sparse matrix; `none` models a KeyError. -/
def lookupMat (d : Data) (k : String) : Option SpMat :=
  match List.lookup k d with
  | some (Entry.mat M) => some M
  | _ => none

/-- `data["param"]`-style lookup of the parameter accessor. -/
def lookupParam (d : Data) (k : String) : Option Param :=
  match List.lookup k d with
  | some (Entry.param p) => some p
  | _ => none

/-- The edge (interface) data dictionary; the only key this core reads is
"mortar_grid". -/
structure EdgeData where
  mortar_grid : MortarGrid

/-- The 3 × 3 coupling block accumulator `cc` (numpy object array of sparse
blocks, indexed by {self, other, mortar} = {0, 1, 2}). -/
abbrev CC := ℕ → ℕ → SpMat

/-- `cc[a, b] += M`: add into one block, leaving every other block unchanged. -/
def ccAdd (cc : CC) (a b : ℕ) (M : SpMat) : CC :=
  fun i j => if i = a ∧ j = b then (cc a b).add M else cc i j

/-- `cc[a, b] -= M`: subtract from one block, leaving every other block
unchanged. -/
def ccSub (cc : CC) (a b : ℕ) (M : SpMat) : CC :=
  fun i j => if i = a ∧ j = b then (cc a b).sub M else cc i j

/-- Modelled from the spec: `pp.fvutils.scalar_divergence` is repository code
not under src.  Per the spec, the Divergence Operator leaf produces the
signed cell-to-face incidence operator mapping face-flux quantities to cell
balances, i.e. the transpose of `cell_faces`; this is also the form
`g.cell_faces.T` that `assemble_rhs` uses inline for the same purpose. -/
def scalar_divergence (g : Grid) : SpMat :=
  g.cell_faces.transpose

/-- `FVElliptic.key`: the namespacing prefix `keyword + "_"`. -/
def key (keyword : String) : String := keyword ++ "_"

/-- `FVElliptic.ndof`: one pressure degree of freedom per cell. -/
def ndof (g : Grid) : ℕ := g.num_cells

/-- `FVElliptic.extract_pressure`: the identity on the solution array. -/
def extract_pressure (g : Grid) (solution_array : Arr) (d : Data) : Arr :=
  solution_array

/-- `FVElliptic.extract_flux`: reads the flux operator from the data store
(KeyError when absent — no lazy discretization here) and applies it to the
solution. -/
def extract_flux (keyword : String) (g : Grid) (solution_array : Arr)
    (d : Data) : Except String Arr :=
  match lookupMat d (key keyword ++ "flux") with
  | some flux_discretization => Except.ok (flux_discretization.mulVec solution_array)
  | none => Except.error "KeyError"

/-- The body of `FVElliptic.assemble_matrix` after the lazy-discretization
check: read the flux operator and left-multiply by the divergence. -/
def assemble_matrix_cached (keyword : String) (g : Grid) (data : Data) :
    Except String SpMat :=
  match lookupMat data (key keyword ++ "flux") with
  | some flux => Except.ok ((scalar_divergence g).mul flux)
  | none => Except.error "KeyError"

/-- `FVElliptic.assemble_matrix`: if the flux key is absent, first run the
(subclass-provided, external) `discretize`, which returns the updated data
store; then compute `div * flux`. -/
def assemble_matrix (keyword : String) (discretize : Grid → Data → Data)
    (g : Grid) (data : Data) : Except String SpMat :=
  assemble_matrix_cached keyword g
    (if hasKey data (key keyword ++ "flux") then data else discretize g data)

/-- The body of `FVElliptic.assemble_rhs` after the lazy-discretization
check: `-div * bound_flux * bc_val` with `div = g.cell_faces.T` and `bc_val`
obtained from the parameter accessor stored under "param". -/
def assemble_rhs_cached (keyword : String) (g : Grid) (data : Data) :
    Except String Arr :=
  match lookupMat data (key keyword ++ "bound_flux") with
  | some bound_flux =>
    match lookupParam data "param" with
    | some param =>
      let bc_val := param.get_bc_val
      let div := g.cell_faces.transpose
      Except.ok (((div.neg).mul bound_flux).mulVec bc_val)
    | none => Except.error "KeyError"
  | none => Except.error "KeyError"

/-- `FVElliptic.assemble_rhs`: if the bound_flux key is absent, first run the
external `discretize`; then compute `-div * bound_flux * bc_val`. -/
def assemble_rhs (keyword : String) (discretize : Grid → Data → Data)
    (g : Grid) (data : Data) : Except String Arr :=
  assemble_rhs_cached keyword g
    (if hasKey data (key keyword ++ "bound_flux") then data else discretize g data)

/-- `FVElliptic.assemble_matrix_rhs`: the pair of the two assemblies. -/
def assemble_matrix_rhs (keyword : String) (discretize : Grid → Data → Data)
    (g : Grid) (data : Data) : Except String SpMat × Except String Arr :=
  (assemble_matrix keyword discretize g data, assemble_rhs keyword discretize g data)

/-- `FVElliptic.assemble_int_bound_flux`: adds
`div * bound_flux * proj.T` into block `cc[self_ind, 2]`, with
`proj = slave_to_mortar_avg` when `grid_swap` and `master_to_mortar_avg`
otherwise; KeyError when the bound_flux operator is absent. -/
def assemble_int_bound_flux (keyword : String) (g : Grid) (data : Data)
    (data_edge : EdgeData) (grid_swap : Bool) (cc : CC) (matrix : SpMat)
    (self_ind : ℕ) : Except String CC :=
  let div := g.cell_faces.transpose
  let mg := data_edge.mortar_grid
  let proj := if grid_swap then mg.slave_to_mortar_avg else mg.master_to_mortar_avg
  match lookupMat data (key keyword ++ "bound_flux") with
  | some bound_flux =>
      Except.ok (ccAdd cc self_ind 2 ((div.mul bound_flux).mul proj.transpose))
  | none => Except.error "KeyError"

/-- `FVElliptic.assemble_int_bound_source`: subtracts `proj.T` from block
`cc[self_ind, 2]`, with `proj = master_to_mortar_avg` when `grid_swap` and
`slave_to_mortar_avg` otherwise. -/
def assemble_int_bound_source (keyword : String) (g : Grid) (data : Data)
    (data_edge : EdgeData) (grid_swap : Bool) (cc : CC) (matrix : SpMat)
    (self_ind : ℕ) : CC :=
  let mg := data_edge.mortar_grid
  let proj := if grid_swap then mg.master_to_mortar_avg else mg.slave_to_mortar_avg
  ccSub cc self_ind 2 proj.transpose

/-- `FVElliptic.assemble_int_bound_pressure_trace`: adds `proj * bp` into
block `cc[2, self_ind]` and `proj * bound_pressure_face * proj.T` into block
`cc[2, 2]`, with `proj = slave_to_mortar_avg` when `grid_swap` and
`master_to_mortar_avg` otherwise. -/
def assemble_int_bound_pressure_trace (keyword : String) (g : Grid)
    (data : Data) (data_edge : EdgeData) (grid_swap : Bool) (cc : CC)
    (matrix : SpMat) (self_ind : ℕ) : Except String CC :=
  let mg := data_edge.mortar_grid
  let proj := if grid_swap then mg.slave_to_mortar_avg else mg.master_to_mortar_avg
  match lookupMat data (key keyword ++ "bound_pressure_cell") with
  | none => Except.error "KeyError"
  | some bp =>
    match lookupMat data (key keyword ++ "bound_pressure_face") with
    | none => Except.error "KeyError"
    | some bpf =>
        Except.ok (ccAdd (ccAdd cc 2 self_ind (proj.mul bp)) 2 2
          ((proj.mul bpf).mul proj.transpose))

/-- `FVElliptic.assemble_int_bound_pressure_cell`: subtracts `proj` from
block `cc[2, self_ind]`, with `proj = master_to_mortar_avg` when `grid_swap`
and `slave_to_mortar_avg` otherwise. -/
def assemble_int_bound_pressure_cell (keyword : String) (g : Grid)
    (data : Data) (data_edge : EdgeData) (grid_swap : Bool) (cc : CC)
    (matrix : SpMat) (self_ind : ℕ) : CC :=
  let mg := data_edge.mortar_grid
  let proj := if grid_swap then mg.master_to_mortar_avg else mg.slave_to_mortar_avg
  ccSub cc 2 self_ind proj

/-- `FVElliptic.enforce_neumann_int_bound`: a deliberate no-op. -/
def enforce_neumann_int_bound (g_master : Grid) (data_edge : EdgeData)
    (matrix : SpMat) : SpMat :=
  matrix

/-- The data dictionary of the mass discretization holds numpy arrays
(porosity "phi" and time step "deltaT"). -/
abbrev MassData := List (String × Arr)

/-- Python `data.get(k, dflt)`. -/
def MassData.get (d : MassData) (k : String) (dflt : Arr) : Arr :=
  (List.lookup k d).getD dflt

namespace Mass

/-- `Mass.ndof`: one degree of freedom per cell. -/
def ndof (g : Grid) : ℕ := g.num_cells

/-- `Mass.matrix_rhs`: diagonal mass matrix with
`coeff = cell_volumes * phi / deltaT` (porosity and time step defaulting to
all-ones arrays of length ndof) and a zero right-hand side. -/
def matrix_rhs (g : Grid) (data : MassData) : SpMat × Arr :=
  let n := Mass.ndof g
  let phi := MassData.get data "phi" (ones n)
  let deltaT := MassData.get data "deltaT" (ones n)
  let coeff : ℕ → ℚ := fun i =>
    g.cell_volumes.entry i * phi.entry i / deltaT.entry i
  (dia_matrix coeff n, zeros n)

/-- `Mass.inv`: diagonal matrix of the reciprocals of the diagonal. -/
def inv (matrix : SpMat) : SpMat :=
  dia_matrix (fun i => 1 / matrix.entry i i) matrix.rows

end Mass

/-! ### Helper lemmas -/

theorem key_flux (kw : String) : key kw ++ "flux" = kw ++ "_flux" := by
  show (kw ++ "_") ++ "flux" = kw ++ "_flux"
  rw [String.append_assoc]
  rfl

theorem key_bound_flux (kw : String) :
    key kw ++ "bound_flux" = kw ++ "_bound_flux" := by
  show (kw ++ "_") ++ "bound_flux" = kw ++ "_bound_flux"
  rw [String.append_assoc]
  rfl

theorem key_bound_pressure_cell (kw : String) :
    key kw ++ "bound_pressure_cell" = kw ++ "_bound_pressure_cell" := by
  show (kw ++ "_") ++ "bound_pressure_cell" = kw ++ "_bound_pressure_cell"
  rw [String.append_assoc]
  rfl

theorem key_bound_pressure_face (kw : String) :
    key kw ++ "bound_pressure_face" = kw ++ "_bound_pressure_face" := by
  show (kw ++ "_") ++ "bound_pressure_face" = kw ++ "_bound_pressure_face"
  rw [String.append_assoc]
  rfl

theorem hasKey_of_lookupMat {d : Data} {k : String} {M : SpMat}
    (h : lookupMat d k = some M) : hasKey d k = true := by
  unfold lookupMat at h
  unfold hasKey
  cases hl : List.lookup k d with
  | none => rw [hl] at h; simp at h
  | some e => rfl

theorem SpMat.neg_mul_left (A B : SpMat) : (A.neg).mul B = (A.mul B).neg := by
  unfold SpMat.mul SpMat.neg
  congr 1
  funext i j
  simp [Finset.sum_neg_distrib]

theorem SpMat.neg_mulVec (A : SpMat) (v : Arr) :
    (A.neg).mulVec v = (A.mulVec v).neg := by
  unfold SpMat.mulVec SpMat.neg Arr.neg
  congr 1
  funext i
  simp [Finset.sum_neg_distrib]

/-! ### Concrete instances used by witnesses and counterexamples -/

def gW : Grid :=
  ⟨1, 2, ⟨1, fun _ => 1⟩, ⟨2, 1, fun i j => if j = 0 ∧ i < 2 then 1 else 0⟩⟩

def fluxW : SpMat := ⟨2, 1, fun i j => if i < 2 ∧ j = 0 then 2 else 0⟩

def bound_fluxW : SpMat := ⟨2, 2, fun i j => if i = j ∧ i < 2 then 1 else 0⟩

def bpW : SpMat := ⟨2, 1, fun i j => if i < 2 ∧ j = 0 then 1 else 0⟩

def bpfW : SpMat := ⟨2, 2, fun i j => if i = j ∧ i < 2 then 1 else 0⟩

def masterW : SpMat := ⟨1, 2, fun i j => if i = 0 ∧ j < 2 then 3 else 0⟩

def slaveW : SpMat := ⟨1, 2, fun i j => if i = 0 ∧ j < 2 then 5 else 0⟩

def mgW : MortarGrid := ⟨masterW, slaveW⟩

def edgeW : EdgeData := ⟨mgW⟩

def paramW : Param := ⟨⟨2, fun _ => 1⟩⟩

def dataW : Data :=
  [("flow_flux", Entry.mat fluxW), ("flow_bound_flux", Entry.mat bound_fluxW),
   ("flow_bound_pressure_cell", Entry.mat bpW),
   ("flow_bound_pressure_face", Entry.mat bpfW), ("param", Entry.param paramW)]

def cc0 : CC := fun _ _ => ⟨1, 1, fun _ _ => 0⟩

def matW : SpMat := ⟨1, 1, fun _ _ => 0⟩

def solW : Arr := ⟨1, fun _ => 1⟩

def discW : Grid → Data → Data := fun _ d => d

/-! ### Claim theorems -/

/-- C1: for every grid g and data store, assemble_matrix returns the sparse
matrix divergence(g) * flux_operator, of dimensions cell count x cell count
(given the shape invariants of cell_faces and of the stored flux operator);
when the key keyword ++ "_flux" is present the external discretize is not
consulted (the result does not depend on it), and when it is absent the
computation proceeds on the store produced by discretize(g, data). -/
theorem c1_assemble_matrix_spec (kw : String) (discretize : Grid → Data → Data)
    (g : Grid) (data : Data) :
    (∀ F, lookupMat data (kw ++ "_flux") = some F →
      assemble_matrix kw discretize g data = Except.ok ((scalar_divergence g).mul F)
      ∧ (∀ d2 : Grid → Data → Data,
          assemble_matrix kw d2 g data = assemble_matrix kw discretize g data)
      ∧ (g.cell_faces.cols = g.num_cells → F.cols = g.num_cells →
          ((scalar_divergence g).mul F).rows = g.num_cells
          ∧ ((scalar_divergence g).mul F).cols = g.num_cells))
    ∧ (hasKey data (kw ++ "_flux") = false →
        assemble_matrix kw discretize g data
          = assemble_matrix_cached kw g (discretize g data)) := by
  constructor
  · intro F hF
    rw [← key_flux] at hF
    have hk : hasKey data (key kw ++ "flux") = true := hasKey_of_lookupMat hF
    refine ⟨?_, ?_, ?_⟩
    · unfold assemble_matrix
      rw [hk]
      simp only [if_true]
      unfold assemble_matrix_cached
      rw [hF]
    · intro d2
      unfold assemble_matrix
      rw [hk]
      simp only [if_true]
    · intro h1 h2
      exact ⟨h1, h2⟩
  · intro h
    rw [← key_flux] at h
    unfold assemble_matrix
    rw [h]
    simp only [Bool.false_eq_true, if_false]

/-- Witness for C1 at a concrete one-cell, two-face grid with the flux
operator present in the store. -/
theorem c1_assemble_matrix_witness :
    assemble_matrix "flow" discW gW dataW
        = Except.ok ((scalar_divergence gW).mul fluxW)
      ∧ ((scalar_divergence gW).mul fluxW).rows = gW.num_cells
      ∧ ((scalar_divergence gW).mul fluxW).cols = gW.num_cells := by
  have h := (c1_assemble_matrix_spec "flow" discW gW dataW).1 fluxW (by rfl)
  exact ⟨h.1, (h.2.2 rfl rfl).1, (h.2.2 rfl rfl).2⟩

/-- C2: for every grid g and data store, assemble_rhs returns
-(cell_face_incidence transposed) * bound_flux_operator * bc_values, with
bc_values obtained from the parameter accessor stored under "param"; when
the key keyword ++ "_bound_flux" is absent the computation proceeds on the
store produced by the external discretize(g, data). -/
theorem c2_assemble_rhs_spec (kw : String) (discretize : Grid → Data → Data)
    (g : Grid) (data : Data) :
    (∀ bf p, lookupMat data (kw ++ "_bound_flux") = some bf →
      lookupParam data "param" = some p →
      assemble_rhs kw discretize g data
        = Except.ok (Arr.neg (((g.cell_faces.transpose).mul bf).mulVec p.get_bc_val)))
    ∧ (hasKey data (kw ++ "_bound_flux") = false →
        assemble_rhs kw discretize g data
          = assemble_rhs_cached kw g (discretize g data)) := by
  constructor
  · intro bf p hbf hp
    rw [← key_bound_flux] at hbf
    have hk : hasKey data (key kw ++ "bound_flux") = true := hasKey_of_lookupMat hbf
    unfold assemble_rhs
    rw [hk]
    simp only [if_true]
    unfold assemble_rhs_cached
    rw [hbf, hp]
    simp only [SpMat.neg_mul_left, SpMat.neg_mulVec]
  · intro h
    rw [← key_bound_flux] at h
    unfold assemble_rhs
    rw [h]
    simp only [Bool.false_eq_true, if_false]

/-- Witness for C2 at a concrete grid with bound_flux and param present. -/
theorem c2_assemble_rhs_witness :
    assemble_rhs "flow" discW gW dataW
      = Except.ok
          (Arr.neg (((gW.cell_faces.transpose).mul bound_fluxW).mulVec
            paramW.get_bc_val)) := by
  exact (c2_assemble_rhs_spec "flow" discW gW dataW).1 bound_fluxW paramW rfl rfl

/-- C3 counterexample: at a concrete interface whose master and slave
projections differ (entries 3 respectively 5) and with grid_swap = true,
assemble_int_bound_pressure_cell subtracts the master-side projection into
block [2, 0]; the slave-side projection the claim predicts would give a
different entry, so the claimed selection rule is refuted. -/
theorem c3_pressure_cell_counterexample :
    (assemble_int_bound_pressure_cell "flow" gW dataW edgeW true cc0 matW 0) 2 0
        = (cc0 2 0).sub masterW
    ∧ ((assemble_int_bound_pressure_cell "flow" gW dataW edgeW true cc0 matW 0) 2 0).entry 0 0
        ≠ ((cc0 2 0).sub slaveW).entry 0 0 := by
  constructor
  · rfl
  · intro h
    have h2 : (0 - 3 : ℚ) = 0 - 5 := h
    norm_num at h2

/-- C3 amended: assemble_int_bound_pressure_cell subtracts the projection
selected with the swap rule inverted relative to the shared rule
(master_to_mortar_avg when grid_swap is true, slave_to_mortar_avg when it is
false — the same selection as assemble_int_bound_source) into block
[2, self_ind] of cc; every other block of cc is unchanged. -/
theorem c3_pressure_cell_amended (kw : String) (g : Grid) (data : Data)
    (de : EdgeData) (gs : Bool) (cc : CC) (m : SpMat) (si : ℕ) :
    (assemble_int_bound_pressure_cell kw g data de gs cc m si) 2 si
        = (cc 2 si).sub
            (if gs then de.mortar_grid.master_to_mortar_avg
             else de.mortar_grid.slave_to_mortar_avg)
    ∧ ∀ i j, ¬(i = 2 ∧ j = si) →
        (assemble_int_bound_pressure_cell kw g data de gs cc m si) i j = cc i j := by
  constructor
  · unfold assemble_int_bound_pressure_cell ccSub
    simp
  · intro i j hij
    unfold assemble_int_bound_pressure_cell ccSub
    simp only [if_neg hij]

/-- Witness for the amended C3 at a concrete interface. -/
theorem c3_pressure_cell_amended_witness :
    (assemble_int_bound_pressure_cell "flow" gW dataW edgeW true cc0 matW 0) 2 0
        = (cc0 2 0).sub masterW
    ∧ (assemble_int_bound_pressure_cell "flow" gW dataW edgeW true cc0 matW 0) 0 1
        = cc0 0 1 := by
  have h := c3_pressure_cell_amended "flow" gW dataW edgeW true cc0 matW 0
  exact ⟨h.1, h.2 0 1 (by decide)⟩

/-- C4: assemble_int_bound_source subtracts the transposed projection into
block [self_ind, 2] of cc, selecting master_to_mortar_avg when grid_swap is
true and slave_to_mortar_avg when it is false — i.e. the rule of
assemble_int_bound_flux with the swap inverted (second conjunct); every
other block of cc is unchanged. -/
theorem c4_source_spec (kw : String) (g : Grid) (data : Data)
    (de : EdgeData) (gs : Bool) (cc : CC) (m : SpMat) (si : ℕ) :
    (assemble_int_bound_source kw g data de gs cc m si) si 2
        = (cc si 2).sub
            ((if gs then de.mortar_grid.master_to_mortar_avg
              else de.mortar_grid.slave_to_mortar_avg).transpose)
    ∧ (assemble_int_bound_source kw g data de gs cc m si) si 2
        = (cc si 2).sub
            ((if !gs then de.mortar_grid.slave_to_mortar_avg
              else de.mortar_grid.master_to_mortar_avg).transpose)
    ∧ ∀ i j, ¬(i = si ∧ j = 2) →
        (assemble_int_bound_source kw g data de gs cc m si) i j = cc i j := by
  refine ⟨?_, ?_, ?_⟩
  · unfold assemble_int_bound_source ccSub
    simp
  · cases gs with
    | false =>
        unfold assemble_int_bound_source ccSub
        simp
    | true =>
        unfold assemble_int_bound_source ccSub
        simp
  · intro i j hij
    unfold assemble_int_bound_source ccSub
    simp only [if_neg hij]

/-- Witness for C4 at a concrete interface with grid_swap = true. -/
theorem c4_source_witness :
    (assemble_int_bound_source "flow" gW dataW edgeW true cc0 matW 0) 0 2
        = (cc0 0 2).sub masterW.transpose
    ∧ (assemble_int_bound_source "flow" gW dataW edgeW true cc0 matW 0) 1 2
        = cc0 1 2 := by
  have h := c4_source_spec "flow" gW dataW edgeW true cc0 matW 0
  exact ⟨h.1, h.2.2 1 2 (by decide)⟩

/-- C5: assemble_int_bound_flux reads the bound_flux operator from the data
store under the key keyword ++ "_bound_flux" and adds
cell_faces.T * bound_flux * projection.T into block [self_ind, 2] of cc,
with projection = slave_to_mortar_avg when grid_swap is true and
master_to_mortar_avg when it is false. -/
theorem c5_flux_spec (kw : String) (g : Grid) (data : Data) (de : EdgeData)
    (gs : Bool) (cc : CC) (m : SpMat) (si : ℕ) (bf : SpMat)
    (hbf : lookupMat data (kw ++ "_bound_flux") = some bf) :
    ∃ cc2, assemble_int_bound_flux kw g data de gs cc m si = Except.ok cc2
      ∧ cc2 si 2 = (cc si 2).add
          (((g.cell_faces.transpose).mul bf).mul
            ((if gs then de.mortar_grid.slave_to_mortar_avg
              else de.mortar_grid.master_to_mortar_avg).transpose)) := by
  rw [← key_bound_flux] at hbf
  unfold assemble_int_bound_flux
  rw [hbf]
  refine ⟨_, rfl, ?_⟩
  unfold ccAdd
  simp

/-- Witness for C5 at a concrete interface with grid_swap = false. -/
theorem c5_flux_witness :
    ∃ cc2, assemble_int_bound_flux "flow" gW dataW edgeW false cc0 matW 0
        = Except.ok cc2
      ∧ cc2 0 2 = (cc0 0 2).add
          (((gW.cell_faces.transpose).mul bound_fluxW).mul masterW.transpose) := by
  exact c5_flux_spec "flow" gW dataW edgeW false cc0 matW 0 bound_fluxW rfl

/-- C6: assemble_int_bound_pressure_trace reads the two pressure
reconstruction operators from the data store, adds
projection * bound_pressure_cell into block [2, self_ind] and
projection * bound_pressure_face * projection.T into block [2, 2], with
projection = slave_to_mortar_avg when grid_swap is true and
master_to_mortar_avg when it is false; every other block of cc is
unchanged. -/
theorem c6_pressure_trace_spec (kw : String) (g : Grid) (data : Data)
    (de : EdgeData) (gs : Bool) (cc : CC) (m : SpMat) (si : ℕ) (bp bpf : SpMat)
    (hbp : lookupMat data (kw ++ "_bound_pressure_cell") = some bp)
    (hbpf : lookupMat data (kw ++ "_bound_pressure_face") = some bpf)
    (hsi : si ≠ 2) :
    ∃ cc2, assemble_int_bound_pressure_trace kw g data de gs cc m si = Except.ok cc2
      ∧ cc2 2 si = (cc 2 si).add
          ((if gs then de.mortar_grid.slave_to_mortar_avg
            else de.mortar_grid.master_to_mortar_avg).mul bp)
      ∧ cc2 2 2 = (cc 2 2).add
          (((if gs then de.mortar_grid.slave_to_mortar_avg
             else de.mortar_grid.master_to_mortar_avg).mul bpf).mul
            ((if gs then de.mortar_grid.slave_to_mortar_avg
              else de.mortar_grid.master_to_mortar_avg).transpose))
      ∧ ∀ i j, ¬(i = 2 ∧ j = si) → ¬(i = 2 ∧ j = 2) → cc2 i j = cc i j := by
  rw [← key_bound_pressure_cell] at hbp
  rw [← key_bound_pressure_face] at hbpf
  have hsi2 : (2 : ℕ) ≠ si := fun hh => hsi hh.symm
  unfold assemble_int_bound_pressure_trace
  rw [hbp, hbpf]
  refine ⟨_, rfl, ?_, ?_, ?_⟩
  · unfold ccAdd
    simp [hsi]
  · unfold ccAdd
    simp [hsi2]
  · intro i j h1 h2
    unfold ccAdd
    simp only [if_neg h1, if_neg h2]

/-- Witness for C6 at a concrete interface with grid_swap = true. -/
theorem c6_pressure_trace_witness :
    ∃ cc2, assemble_int_bound_pressure_trace "flow" gW dataW edgeW true cc0 matW 0
        = Except.ok cc2
      ∧ cc2 2 0 = (cc0 2 0).add (slaveW.mul bpW)
      ∧ cc2 2 2 = (cc0 2 2).add ((slaveW.mul bpfW).mul slaveW.transpose)
      ∧ cc2 0 1 = cc0 0 1 := by
  obtain ⟨cc2, h1, h2, h3, h4⟩ :=
    c6_pressure_trace_spec "flow" gW dataW edgeW true cc0 matW 0 bpW bpfW
      rfl rfl (by decide)
  exact ⟨cc2, h1, h2, h3, h4 0 1 (by decide) (by decide)⟩

theorem matrix_rhs_fst (g : Grid) (data : MassData) :
    (Mass.matrix_rhs g data).1
      = dia_matrix (fun i =>
          g.cell_volumes.entry i
            * (MassData.get data "phi" (ones g.num_cells)).entry i
            / (MassData.get data "deltaT" (ones g.num_cells)).entry i)
        g.num_cells := rfl

theorem matrix_rhs_snd (g : Grid) (data : MassData) :
    (Mass.matrix_rhs g data).2 = zeros g.num_cells := rfl

/-- C7: Mass.matrix_rhs returns a diagonal square matrix of size cell count
whose diagonal entry i is cell_volume i * porosity i / timestep i, porosity
and timestep being read from the data dictionary under keys "phi" and
"deltaT" with all-ones arrays of length cell count as defaults, together
with the zero vector of length cell count as right-hand side. -/
theorem c7_mass_matrix_rhs_spec (g : Grid) (data : MassData) :
    ((Mass.matrix_rhs g data).1).rows = g.num_cells
    ∧ ((Mass.matrix_rhs g data).1).cols = g.num_cells
    ∧ (∀ i, i < g.num_cells →
        ((Mass.matrix_rhs g data).1).entry i i
          = g.cell_volumes.entry i
              * (MassData.get data "phi" (ones g.num_cells)).entry i
              / (MassData.get data "deltaT" (ones g.num_cells)).entry i)
    ∧ (∀ i j, i ≠ j → ((Mass.matrix_rhs g data).1).entry i j = 0)
    ∧ (List.lookup "phi" data = none →
        MassData.get data "phi" (ones g.num_cells) = ones g.num_cells)
    ∧ (List.lookup "deltaT" data = none →
        MassData.get data "deltaT" (ones g.num_cells) = ones g.num_cells)
    ∧ (Mass.matrix_rhs g data).2 = zeros g.num_cells
    ∧ (zeros g.num_cells).len = g.num_cells := by
  refine ⟨rfl, rfl, ?_, ?_, ?_, ?_, rfl, rfl⟩
  · intro i hi
    rw [matrix_rhs_fst]
    simp [dia_matrix, hi]
  · intro i j hij
    rw [matrix_rhs_fst]
    simp [dia_matrix, hij]
  · intro h
    unfold MassData.get
    rw [h]
    rfl
  · intro h
    unfold MassData.get
    rw [h]
    rfl

/-- Witness for C7 on a concrete one-cell grid with an empty parameter
dictionary (both defaults in effect). -/
theorem c7_mass_matrix_rhs_witness :
    ((Mass.matrix_rhs gW ([] : MassData)).1).entry 0 0
      = gW.cell_volumes.entry 0
          * (MassData.get ([] : MassData) "phi" (ones gW.num_cells)).entry 0
          / (MassData.get ([] : MassData) "deltaT" (ones gW.num_cells)).entry 0
    ∧ ((Mass.matrix_rhs gW ([] : MassData)).1).entry 0 1 = 0
    ∧ MassData.get ([] : MassData) "phi" (ones gW.num_cells) = ones gW.num_cells
    ∧ (Mass.matrix_rhs gW ([] : MassData)).2 = zeros gW.num_cells := by
  have h := c7_mass_matrix_rhs_spec gW ([] : MassData)
  exact ⟨h.2.2.1 0 (by decide), h.2.2.2.1 0 1 (by decide),
    h.2.2.2.2.1 rfl, h.2.2.2.2.2.2.1⟩

theorem dia_mul_inv (coeff : ℕ → ℚ) (n : ℕ)
    (h : ∀ i, i < n → coeff i ≠ 0) :
    (dia_matrix coeff n).mul (Mass.inv (dia_matrix coeff n)) = identityMat n := by
  simp only [Mass.inv, dia_matrix, identityMat, SpMat.mul]
  congr 1
  funext i j
  by_cases hi : i < n
  · rw [Finset.sum_eq_single i]
    · by_cases hij : i = j
      · subst hij
        simp [hi, h i hi]
      · simp [hi, hij]
    · intro b hb hbi
      have hib : ¬(i = b) := fun hh => hbi hh.symm
      simp [hib]
    · intro hnot
      exact absurd (Finset.mem_range.mpr hi) hnot
  · rw [Finset.sum_eq_zero]
    · simp [hi]
    · intro b hb
      simp [hi]

/-- C8: the diagonal entries of Mass.inv applied to the mass matrix are the
reciprocals of that matrix on its diagonal, and matrix * inv(matrix) is the
identity matrix whenever every diagonal entry is nonzero. -/
theorem c8_mass_inv_spec (g : Grid) (data : MassData) :
    (∀ i, i < ((Mass.matrix_rhs g data).1).rows →
      (Mass.inv ((Mass.matrix_rhs g data).1)).entry i i
        = 1 / ((Mass.matrix_rhs g data).1).entry i i)
    ∧ ((∀ i, i < ((Mass.matrix_rhs g data).1).rows →
          ((Mass.matrix_rhs g data).1).entry i i ≠ 0) →
        ((Mass.matrix_rhs g data).1).mul (Mass.inv ((Mass.matrix_rhs g data).1))
          = identityMat ((Mass.matrix_rhs g data).1).rows) := by
  rw [matrix_rhs_fst]
  constructor
  · intro i hi
    have hi2 : i < g.num_cells := hi
    simp [Mass.inv, dia_matrix, hi2]
  · intro hnz
    have hcoeff : ∀ i, i < g.num_cells →
        (g.cell_volumes.entry i
            * (MassData.get data "phi" (ones g.num_cells)).entry i
            / (MassData.get data "deltaT" (ones g.num_cells)).entry i) ≠ 0 := by
      intro i hi
      have hx := hnz i hi
      simpa [dia_matrix, hi] using hx
    exact dia_mul_inv _ g.num_cells hcoeff

/-- Witness for C8 on a concrete one-cell grid with unit volume and the
default parameters, whose single diagonal entry is 1 and hence nonzero. -/
theorem c8_mass_inv_witness :
    (Mass.inv ((Mass.matrix_rhs gW ([] : MassData)).1)).entry 0 0
        = 1 / ((Mass.matrix_rhs gW ([] : MassData)).1).entry 0 0
    ∧ ((Mass.matrix_rhs gW ([] : MassData)).1).mul
          (Mass.inv ((Mass.matrix_rhs gW ([] : MassData)).1))
        = identityMat ((Mass.matrix_rhs gW ([] : MassData)).1).rows := by
  have h := c8_mass_inv_spec gW ([] : MassData)
  refine ⟨h.1 0 (by decide), h.2 ?_⟩
  intro i hi
  have hi1 : i < 1 := hi
  interval_cases i
  rw [matrix_rhs_fst]
  simp [dia_matrix, gW, MassData.get, ones]

/-- C9 counterexample: extract_flux is not the only assembly operation that
skips the lazy-discretization fallback.  At a concrete input whose data
store lacks the key "flow_bound_flux", the coupling assembly operation
assemble_int_bound_flux raises a KeyError instead of calling discretize
(its source has no discretize call at all), refuting the claim that every
assembly operation other than extract_flux falls back to discretize on a
missing key. -/
theorem c9_counterexample :
    assemble_int_bound_flux "flow" gW ([] : Data) edgeW false cc0 matW 0
      = Except.error "KeyError" := rfl

/-- C9 amended: extract_flux returns flux_operator * solution when the key
keyword ++ "_flux" is present and raises (KeyError) exactly when it is
absent, never triggering lazy discretization; among the per-grid elliptic
operations, assemble_matrix and assemble_rhs do fall back to the external
discretize on a missing key, but the interface-coupling operation
assemble_int_bound_flux likewise raises without any fallback, so
extract_flux is only unique among the per-grid operations. -/
theorem c9_extract_flux_amended (kw : String) (g : Grid) (sol : Arr)
    (d : Data) (discretize : Grid → Data → Data) :
    (∀ F, lookupMat d (kw ++ "_flux") = some F →
      extract_flux kw g sol d = Except.ok (F.mulVec sol))
    ∧ (lookupMat d (kw ++ "_flux") = none →
        extract_flux kw g sol d = Except.error "KeyError")
    ∧ (hasKey d (kw ++ "_flux") = false →
        assemble_matrix kw discretize g d
          = assemble_matrix_cached kw g (discretize g d))
    ∧ (hasKey d (kw ++ "_bound_flux") = false →
        assemble_rhs kw discretize g d
          = assemble_rhs_cached kw g (discretize g d))
    ∧ (lookupMat d (kw ++ "_bound_flux") = none →
        ∀ de gs cc m si, assemble_int_bound_flux kw g d de gs cc m si
          = Except.error "KeyError") := by
  refine ⟨?_, ?_, ?_, ?_, ?_⟩
  · intro F hF
    rw [← key_flux] at hF
    unfold extract_flux
    rw [hF]
  · intro hF
    rw [← key_flux] at hF
    unfold extract_flux
    rw [hF]
  · intro h
    rw [← key_flux] at h
    unfold assemble_matrix
    rw [h]
    simp only [Bool.false_eq_true, if_false]
  · intro h
    rw [← key_bound_flux] at h
    unfold assemble_rhs
    rw [h]
    simp only [Bool.false_eq_true, if_false]
  · intro h de gs cc m si
    rw [← key_bound_flux] at h
    unfold assemble_int_bound_flux
    rw [h]

/-- Witness for the amended C9: extract_flux succeeds on a store holding the
flux operator and raises on an empty store. -/
theorem c9_extract_flux_amended_witness :
    extract_flux "flow" gW solW dataW = Except.ok (fluxW.mulVec solW)
    ∧ extract_flux "flow" gW solW ([] : Data) = Except.error "KeyError" := by
  refine ⟨(c9_extract_flux_amended "flow" gW solW dataW discW).1 fluxW rfl, ?_⟩
  exact (c9_extract_flux_amended "flow" gW solW ([] : Data) discW).2.1 rfl

/-- C10 frame property: each of the four assemble_int_bound operations
changes only its designated block(s) of the cc accumulator, and each
designated block is updated additively (the new block is the old block plus
or minus a delta), never overwritten; the operations are pure functions of
their inputs returning only the updated cc, so the grid, the data store,
the edge data and the matrix argument are untouched. -/
theorem c10_frame_spec (kw : String) (g : Grid) (data : Data) (de : EdgeData)
    (gs : Bool) (cc : CC) (m : SpMat) (si : ℕ) :
    (∀ bf, lookupMat data (kw ++ "_bound_flux") = some bf →
      ∃ cc2, assemble_int_bound_flux kw g data de gs cc m si = Except.ok cc2
        ∧ (∃ D, cc2 si 2 = (cc si 2).add D)
        ∧ ∀ i j, ¬(i = si ∧ j = 2) → cc2 i j = cc i j)
    ∧ ((∃ D, (assemble_int_bound_source kw g data de gs cc m si) si 2
          = (cc si 2).sub D)
        ∧ ∀ i j, ¬(i = si ∧ j = 2) →
            (assemble_int_bound_source kw g data de gs cc m si) i j = cc i j)
    ∧ (∀ bp bpf, si ≠ 2 →
        lookupMat data (kw ++ "_bound_pressure_cell") = some bp →
        lookupMat data (kw ++ "_bound_pressure_face") = some bpf →
      ∃ cc2, assemble_int_bound_pressure_trace kw g data de gs cc m si
          = Except.ok cc2
        ∧ (∃ D, cc2 2 si = (cc 2 si).add D)
        ∧ (∃ D, cc2 2 2 = (cc 2 2).add D)
        ∧ ∀ i j, ¬(i = 2 ∧ j = si) → ¬(i = 2 ∧ j = 2) → cc2 i j = cc i j)
    ∧ ((∃ D, (assemble_int_bound_pressure_cell kw g data de gs cc m si) 2 si
          = (cc 2 si).sub D)
        ∧ ∀ i j, ¬(i = 2 ∧ j = si) →
            (assemble_int_bound_pressure_cell kw g data de gs cc m si) i j
              = cc i j) := by
  refine ⟨?_, ⟨?_, ?_⟩, ?_, ⟨?_, ?_⟩⟩
  · intro bf hbf
    rw [← key_bound_flux] at hbf
    unfold assemble_int_bound_flux
    rw [hbf]
    refine ⟨_, rfl,
      ⟨((g.cell_faces.transpose).mul bf).mul
        ((if gs then de.mortar_grid.slave_to_mortar_avg
          else de.mortar_grid.master_to_mortar_avg).transpose), ?_⟩, ?_⟩
    · unfold ccAdd
      simp
    · intro i j hij
      unfold ccAdd
      simp only [if_neg hij]
  · refine ⟨(if gs then de.mortar_grid.master_to_mortar_avg
      else de.mortar_grid.slave_to_mortar_avg).transpose, ?_⟩
    unfold assemble_int_bound_source ccSub
    simp
  · intro i j hij
    unfold assemble_int_bound_source ccSub
    simp only [if_neg hij]
  · intro bp bpf hsi hbp hbpf
    rw [← key_bound_pressure_cell] at hbp
    rw [← key_bound_pressure_face] at hbpf
    have hsi2 : (2 : ℕ) ≠ si := fun hh => hsi hh.symm
    unfold assemble_int_bound_pressure_trace
    rw [hbp, hbpf]
    refine ⟨_, rfl,
      ⟨(if gs then de.mortar_grid.slave_to_mortar_avg
        else de.mortar_grid.master_to_mortar_avg).mul bp, ?_⟩,
      ⟨((if gs then de.mortar_grid.slave_to_mortar_avg
         else de.mortar_grid.master_to_mortar_avg).mul bpf).mul
        ((if gs then de.mortar_grid.slave_to_mortar_avg
          else de.mortar_grid.master_to_mortar_avg).transpose), ?_⟩, ?_⟩
    · unfold ccAdd
      simp [hsi]
    · unfold ccAdd
      simp [hsi2]
    · intro i j h1 h2
      unfold ccAdd
      simp only [if_neg h1, if_neg h2]
  · refine ⟨(if gs then de.mortar_grid.master_to_mortar_avg
      else de.mortar_grid.slave_to_mortar_avg), ?_⟩
    unfold assemble_int_bound_pressure_cell ccSub
    simp
  · intro i j hij
    unfold assemble_int_bound_pressure_cell ccSub
    simp only [if_neg hij]

/-- Witness for C10 at a concrete interface: one off-target block is
verified unchanged for each of the four operations, and each target block
is an additive update of the old block. -/
theorem c10_frame_witness :
    (∃ cc2, assemble_int_bound_flux "flow" gW dataW edgeW false cc0 matW 0
        = Except.ok cc2
      ∧ (∃ D, cc2 0 2 = (cc0 0 2).add D) ∧ cc2 1 1 = cc0 1 1)
    ∧ (∃ D, (assemble_int_bound_source "flow" gW dataW edgeW false cc0 matW 0) 0 2
        = (cc0 0 2).sub D)
    ∧ (assemble_int_bound_source "flow" gW dataW edgeW false cc0 matW 0) 2 2
        = cc0 2 2
    ∧ (∃ cc2, assemble_int_bound_pressure_trace "flow" gW dataW edgeW false cc0 matW 0
        = Except.ok cc2
      ∧ (∃ D, cc2 2 0 = (cc0 2 0).add D) ∧ (∃ D, cc2 2 2 = (cc0 2 2).add D)
      ∧ cc2 1 0 = cc0 1 0)
    ∧ (∃ D, (assemble_int_bound_pressure_cell "flow" gW dataW edgeW false cc0 matW 0) 2 0
        = (cc0 2 0).sub D)
    ∧ (assemble_int_bound_pressure_cell "flow" gW dataW edgeW false cc0 matW 0) 0 0
        = cc0 0 0 := by
  have h := c10_frame_spec "flow" gW dataW edgeW false cc0 matW 0
  obtain ⟨cc2, he, hd, hfr⟩ := h.1 bound_fluxW rfl
  obtain ⟨cc3, he3, hd3, hd3b, hfr3⟩ := h.2.2.1 bpW bpfW (by decide) rfl rfl
  refine ⟨⟨cc2, he, hd, hfr 1 1 (by decide)⟩, h.2.1.1, h.2.1.2 2 2 (by decide),
    ⟨cc3, he3, hd3, hd3b, hfr3 1 0 (by decide) (by decide)⟩,
    h.2.2.2.1, h.2.2.2.2 0 0 (by decide)⟩
